import Mathlib

/-!
Shallow embedding of the obs-canvas repository (an Obsidian-canvas viewer).

The repository contains three successive variants of the canvas-to-VueFlow
conversion logic:
* `CanvasLoader`   : `src/utils/canvasLoader.ts` (no node filtering, plain
                     edge stroke colors);
* `CanvasNodeV2`   : the first loader copy embedded in
                     `src/components/CanvasNode.vue` (two-argument
                     `darkenColor`, node filtering, darkened edge strokes);
* `CanvasNodeV3`   : the second loader copy embedded in the same file
                     (three-argument HSL `darkenColor`, node filtering,
                     pass-through edge strokes);
* `AppVue`         : the URL parsing in `App.vue`.

JavaScript strings are modelled as Lean `String` / `List Char`; JavaScript
numbers as exact fractions (`Frac`), with `JsNum` adding the NaN / Infinity
values that the three-argument `darkenColor` can reach through `parseInt`
failures and zero divisors.  Everywhere a claim depends on a numeric result
the JS float computation is exact, so the fraction model agrees with it.
-/

/-! ## JavaScript string primitives -/

/-- `pre` is a prefix of `s` (char-by-char comparison). -/
def isPrefixList : List Char → List Char → Bool
  | [], _ => true
  | _ :: _, [] => false
  | a :: as, b :: bs => a = b && isPrefixList as bs

/-- `sub` occurs somewhere inside `s` (JS `String.prototype.includes`). -/
def hasSubstr (sub : List Char) : List Char → Bool
  | [] => isPrefixList sub []
  | c :: rest => isPrefixList sub (c :: rest) || hasSubstr sub rest

/-- JS `s.includes(sub)`. -/
def jsIncludes (s sub : String) : Bool := hasSubstr sub.toList s.toList

/-- JS `s.startsWith(pre)`. -/
def jsStartsWith (s pre : String) : Bool := isPrefixList pre.toList s.toList

/-- JS `s.split(sep)` for a single-character separator, on char lists.
`"".split(sep)` is `[""]`, and separators at the ends produce empty parts. -/
def splitOnChar (sep : Char) : List Char → List (List Char)
  | [] => [[]]
  | c :: rest =>
    if c = sep then [] :: splitOnChar sep rest
    else
      match splitOnChar sep rest with
      | [] => [[c]]
      | h :: t => (c :: h) :: t

/-- JS `s.split(sep)` for a single-character separator. -/
def jsSplit (s : String) (sep : Char) : List String :=
  (splitOnChar sep s.toList).map (fun l => String.mk l)

/-- JS `s.replace(/^\//, '')`: drop one leading slash if present. -/
def stripLeadingSlash (s : String) : String :=
  match s.toList with
  | '/' :: rest => String.mk rest
  | _ => s

/-- JS string truthiness: every string but `""` is truthy. -/
def jsTruthyStr (s : String) : Bool := !(s = "")

/-- JS truthiness of an optional string field (`undefined` is falsy). -/
def jsTruthyOpt : Option String → Bool
  | none => false
  | some s => jsTruthyStr s

/-- JS `a || b` on an optional string `a` and a string fallback `b`. -/
def jsOrElse (a : Option String) (b : String) : String :=
  match a with
  | some s => if s = "" then b else s
  | none => b

/-- JS `s.slice(a, b)` for `0 ≤ a ≤ b` (out-of-range indices clamp). -/
def jsSlice (s : String) (a b : Nat) : String :=
  String.mk ((s.toList.drop a).take (b - a))

/-- JS `s.slice(a)`. -/
def jsSliceFrom (s : String) (a : Nat) : String := String.mk (s.toList.drop a)

/-- JS `s.substring(0, n)`. -/
def jsSubstring0 (s : String) (n : Nat) : String := String.mk (s.toList.take n)

/-! ## JavaScript number parsing -/

/-- Whitespace skipped by JS `parseInt`. -/
def isJsSpace (c : Char) : Bool := c = ' ' || c = '\t' || c = '\n' || c = '\r'

/-- Hex digits accepted by `parseInt(_, 16)` and by the case-insensitive
character class `[a-f0-9]` under the `i` flag. -/
def isHexDigitChar (c : Char) : Bool :=
  ('0' ≤ c && c ≤ '9') || ('a' ≤ c && c ≤ 'f') || ('A' ≤ c && c ≤ 'F')

/-- Numeric value of a hex digit. -/
def hexDigitVal (c : Char) : Nat :=
  if '0' ≤ c && c ≤ '9' then c.toNat - '0'.toNat
  else if 'a' ≤ c && c ≤ 'f' then c.toNat - 'a'.toNat + 10
  else c.toNat - 'A'.toNat + 10

/-- Value of the leading run of hex digits; `none` when there is none
(this is `parseInt`'s NaN). -/
def hexRunVal (l : List Char) : Option Nat :=
  let run := l.takeWhile isHexDigitChar
  if run.isEmpty then none
  else some (run.foldl (fun n c => 16 * n + hexDigitVal c) 0)

/-- `parseInt(_, 16)` strips an optional `0x` / `0X` after the sign. -/
def strip0x : List Char → List Char
  | '0' :: 'x' :: rest => rest
  | '0' :: 'X' :: rest => rest
  | l => l

/-- JS `parseInt(s, 16)`: skip whitespace, optional sign, optional `0x`,
then read leading hex digits; `none` models NaN. -/
def parseIntHex (s : String) : Option Int :=
  match s.toList.dropWhile isJsSpace with
  | '-' :: rest => (hexRunVal (strip0x rest)).map (fun n => -(n : Int))
  | '+' :: rest => (hexRunVal (strip0x rest)).map (fun n => (n : Int))
  | rest => (hexRunVal (strip0x rest)).map (fun n => (n : Int))

/-- Decimal digit value. -/
def digitVal (c : Char) : Nat := c.toNat - '0'.toNat

/-- Worker for `digitRuns`: the accumulator holds the value of the digit
run currently being read. -/
def digitRunsGo : List Char → Option Nat → List Nat
  | [], none => []
  | [], some n => [n]
  | c :: rest, none =>
    if c.isDigit then digitRunsGo rest (some (digitVal c)) else digitRunsGo rest none
  | c :: rest, some n =>
    if c.isDigit then digitRunsGo rest (some (10 * n + digitVal c))
    else n :: digitRunsGo rest none

/-- JS `s.match(/\d+/g)` followed by `parseInt` of each run: the values of
all maximal decimal-digit runs in `s`, in order. -/
def digitRuns (s : String) : List Nat := digitRunsGo s.toList none

/-! ## Exact rational arithmetic

JS number arithmetic in this code is exact at every place a claim
depends on, so numbers are modelled as exact fractions.  `Frac` is an
unreduced integer fraction with a positive denominator; all observations
(comparisons, rounding, printing) depend only on the represented value
`toRat`.  A dedicated type is used instead of `ℚ` so that every operation
reduces inside the kernel. -/

/-- An exact fraction: `num / den` with `0 < den`. -/
structure Frac where
  num : Int
  den : Int
  den_pos : 0 < den

namespace Frac

/-- The rational value represented. -/
def toRat (a : Frac) : ℚ := (a.num : ℚ) / (a.den : ℚ)

/-- Embed an integer. -/
def ofInt (n : Int) : Frac := ⟨n, 1, Int.one_pos⟩

/-- The literal `n / d`; zero or negative `d` (never used) falls back to `0`. -/
def q (n d : Int) : Frac := if h : 0 < d then ⟨n, d, h⟩ else ofInt 0

/-- Addition. -/
def add (a b : Frac) : Frac :=
  ⟨a.num * b.den + b.num * a.den, a.den * b.den, mul_pos a.den_pos b.den_pos⟩

/-- Negation. -/
def neg (a : Frac) : Frac := ⟨-a.num, a.den, a.den_pos⟩

/-- Subtraction. -/
def sub (a b : Frac) : Frac := add a (neg b)

/-- Multiplication. -/
def mul (a b : Frac) : Frac :=
  ⟨a.num * b.num, a.den * b.den, mul_pos a.den_pos b.den_pos⟩

/-- Division; the divisor is never value-zero where this is used (the
IEEE zero-divisor cases are handled one level up, in `JsNum`). -/
def div (a b : Frac) : Frac :=
  if h : 0 < b.num then ⟨a.num * b.den, a.den * b.num, mul_pos a.den_pos h⟩
  else if h2 : b.num < 0 then
    ⟨-(a.num * b.den), a.den * (-b.num), mul_pos a.den_pos (by omega)⟩
  else ofInt 0

/-- Value comparison `<`. -/
def blt (a b : Frac) : Bool := decide (a.num * b.den < b.num * a.den)

/-- Value equality. -/
def beq (a b : Frac) : Bool := decide (a.num * b.den = b.num * a.den)

/-- JS `Math.max` on two fractions (by value). -/
def maxF (a b : Frac) : Frac := if blt a b then b else a

/-- JS `Math.min` on two fractions (by value). -/
def minF (a b : Frac) : Frac := if blt a b then a else b

/-- JS `Math.round`: `⌊value + 1/2⌋`, computed by floor division. -/
def jsRoundF (a : Frac) : Int := Int.fdiv (2 * a.num + a.den) (2 * a.den)

/-- Truncation toward zero, for the JS `%` remainder. -/
def truncF (a : Frac) : Int := Int.tdiv a.num a.den

end Frac

/-- Render an optional integer channel; `none` prints as JS NaN does. -/
def numToStr : Option Int → String
  | some v => toString v
  | none => "NaN"

/-- The template literal shared by every `darkenColor` variant. -/
def rgbStr (r g b : String) : String :=
  "rgb(" ++ r ++ ", " ++ g ++ ", " ++ b ++ ")"

/-! ## Source data model (`canvasLoader.ts` interfaces, identical in all
three copies) -/

/-- `CanvasNode` interface. -/
structure CanvasNode where
  id : String
  type : String
  text : Option String := none
  file : Option String := none
  x : Int
  y : Int
  width : Int
  height : Int
  color : Option String := none
deriving DecidableEq

/-- `CanvasEdge` interface. -/
structure CanvasEdge where
  id : String
  fromNode : String
  fromSide : String
  toNode : String
  toSide : String
  color : Option String := none
deriving DecidableEq

/-- `CanvasData` interface. -/
structure CanvasData where
  nodes : List CanvasNode
  edges : List CanvasEdge
deriving DecidableEq

/-- `position` record of a VueFlow node. -/
structure VuePosition where
  x : Int
  y : Int
deriving DecidableEq

/-- `data` record attached to every converted VueFlow node. -/
structure VueFlowNodeData where
  label : String
  content : String
  originalType : String
  width : Int
  height : Int
  color : Option String
deriving DecidableEq

/-- `style` record produced by the `canvasLoader.ts` node converter. -/
structure VueFlowNodeStyleA where
  width : String
  height : String
  backgroundColor : String
  border : String
  borderRadius : String
  fontSize : String
deriving DecidableEq

/-- VueFlow node produced by the `canvasLoader.ts` converter. -/
structure VueFlowNodeA where
  id : String
  type : String
  position : VuePosition
  dimensions : VuePosition
  data : VueFlowNodeData
  style : VueFlowNodeStyleA
deriving DecidableEq

/-- `style` record produced by the `CanvasNode.vue` node converters. -/
structure VueFlowNodeStyleBC where
  backgroundColor : String
  border : String
  borderRadius : String
  fontSize : String
deriving DecidableEq

/-- VueFlow node produced by the `CanvasNode.vue` converters. -/
structure VueFlowNodeBC where
  id : String
  type : String
  position : VuePosition
  data : VueFlowNodeData
  style : VueFlowNodeStyleBC
deriving DecidableEq

/-- Edge style with a definite stroke color (loader and V2 variants). -/
structure VueFlowEdgeStyle where
  stroke : String
  strokeWidth : Int
deriving DecidableEq

/-- Converted VueFlow edge with a definite stroke color. -/
structure VueFlowEdge where
  id : String
  source : String
  target : String
  sourceHandle : String
  targetHandle : String
  style : VueFlowEdgeStyle
  type : String
deriving DecidableEq

/-- Edge style of the V3 variant, whose stroke is `edge.color` verbatim and
hence possibly `undefined`. -/
structure VueFlowEdgeStyleOpt where
  stroke : Option String
  strokeWidth : Int
deriving DecidableEq

/-- Converted VueFlow edge of the V3 variant. -/
structure VueFlowEdgeOpt where
  id : String
  source : String
  target : String
  sourceHandle : String
  targetHandle : String
  style : VueFlowEdgeStyleOpt
  type : String
deriving DecidableEq

/-! ## `src/utils/canvasLoader.ts` -/

namespace CanvasLoader

/-- `isGistUrl`. -/
def isGistUrl (path : String) : Bool :=
  jsIncludes path "gist.github.com" || jsIncludes path "gist.githubusercontent.com"

/-- Case-insensitive prefix test, for the `i` regex flag. -/
def isPrefixCI : List Char → List Char → Bool
  | [], _ => true
  | _ :: _, [] => false
  | a :: as, b :: bs => a.toLower = b.toLower && isPrefixCI as bs

/-- Attempt of `/gist\.github\.com\/([^\/]+)\/([a-f0-9]+)/i` anchored at the
head of `l`: the literal (case-insensitively), a maximal nonempty run of
non-`/` characters, a `/`, then a maximal nonempty run of hex digits. -/
def tryGistAt (l : List Char) : Option (List Char × List Char) :=
  if isPrefixCI "gist.github.com/".toList l then
    let t := l.drop 16
    let user := t.takeWhile (fun c => !(c = '/'))
    if user.isEmpty then none
    else
      match t.drop user.length with
      | '/' :: u =>
        let gid := u.takeWhile isHexDigitChar
        if gid.isEmpty then none else some (user, gid)
      | _ => none
  else none

/-- Leftmost match of the gist regex: `cleanUrl.match(/gist\.github\.com\/([^\/]+)\/([a-f0-9]+)/i)`. -/
def gistSearch : List Char → Option (List Char × List Char)
  | [] => none
  | c :: rest =>
    match tryGistAt (c :: rest) with
    | some r => some r
    | none => gistSearch rest

/-- Line terminators not matched by `.` in a JS regex. -/
def isLineTerm (c : Char) : Bool :=
  c = '\n' || c = '\r' || c.toNat = 0x2028 || c.toNat = 0x2029

/-- Attempt of `/#file-(.+)/` anchored at the head of `l`. -/
def tryFragAt (l : List Char) : Option (List Char) :=
  if isPrefixList "#file-".toList l then
    let cap := (l.drop 6).takeWhile (fun c => !(isLineTerm c))
    if cap.isEmpty then none else some cap
  else none

/-- Leftmost match of `gistUrl.match(/#file-(.+)/)`. -/
def fragSearch : List Char → Option (List Char)
  | [] => none
  | c :: rest =>
    match tryFragAt (c :: rest) with
    | some r => some r
    | none => fragSearch rest

/-- The fragment-to-filename step: `fragmentMatch[1]` with every dash
replaced by a dot (a global single-character regex replace). -/
def dashToDot (s : String) : String :=
  String.mk (s.toList.map (fun c => if c = '-' then '.' else c))

/-- `convertGistToRawUrl`. -/
def convertGistToRawUrl (gistUrl : String) : String :=
  if jsIncludes gistUrl "gist.githubusercontent.com" then gistUrl
  else if jsIncludes gistUrl "gist.github.com" then
    let cleanUrl := (jsSplit gistUrl '#').headD ""
    match gistSearch cleanUrl.toList with
    | some (user, gid) =>
      let username := String.mk user
      let gistId := String.mk gid
      match fragSearch gistUrl.toList with
      | some frag =>
        let filename := dashToDot (String.mk frag)
        "https://gist.githubusercontent.com/" ++ username ++ "/" ++ gistId ++
          "/raw/" ++ filename
      | none =>
        "https://gist.githubusercontent.com/" ++ username ++ "/" ++ gistId ++ "/raw/"
    | none => gistUrl
  else gistUrl

/-- `getVueFlowNodeType`. -/
def getVueFlowNodeType (canvasType : String) : String :=
  if canvasType = "text" then "default"
  else if canvasType = "file" then "input"
  else "default"

/-- `getNodeLabel`. -/
def getNodeLabel (node : CanvasNode) : String :=
  if jsTruthyOpt node.text then
    let firstLine := (jsSplit (node.text.getD "") '\n').headD ""
    if 50 < firstLine.length then jsSubstring0 firstLine 47 ++ "..." else firstLine
  else if jsTruthyOpt node.file then
    let f := node.file.getD ""
    let popped := (jsSplit f '/').getLastD ""
    if popped = "" then f else popped
  else node.type ++ " node"

/-- `convertNodesToVueFlow` (no filtering in this variant). -/
def convertNodesToVueFlow (canvasNodes : List CanvasNode) : List VueFlowNodeA :=
  canvasNodes.map (fun node =>
    { id := node.id
      type := getVueFlowNodeType node.type
      position := { x := node.x, y := node.y }
      dimensions := { x := node.width, y := node.height }
      data :=
        { label := getNodeLabel node
          content := jsOrElse node.text (jsOrElse node.file "")
          originalType := node.type
          width := node.width
          height := node.height
          color := node.color }
      style :=
        { width := toString node.width ++ "px"
          height := toString node.height ++ "px"
          backgroundColor := jsOrElse node.color "rgb(242 242 242)"
          border := "1px solid #ddd"
          borderRadius := "8px"
          fontSize := "14px" } })

/-- `convertEdgesToVueFlow` (stroke is the raw color or the default gray). -/
def convertEdgesToVueFlow (canvasEdges : List CanvasEdge) : List VueFlowEdge :=
  canvasEdges.map (fun edge =>
    { id := edge.id
      source := edge.fromNode
      target := edge.toNode
      sourceHandle := edge.fromSide
      targetHandle := edge.toSide
      style := { stroke := jsOrElse edge.color "#b1b1b7", strokeWidth := 2 }
      type := "default" })

/-- Outcome of the external `fetch(url)` + `response.json()` pair:
a successful response carries `some` parsed data or `none` for a body that
is not valid JSON; `failure` is a non-2xx status with its status text. -/
inductive FetchResult where
  | success (body : Option CanvasData)
  | failure (statusText : String)
  | networkError (msg : String)
deriving DecidableEq

/-- `loadCanvasFile`, with the transport abstracted as a `fetch` oracle.
Thrown errors are modelled by `Except.error` (the source catches, logs and
rethrows, so every failure propagates). -/
def loadCanvasFile (filePath : String) (fetch : String → FetchResult) :
    Except String CanvasData :=
  if isGistUrl filePath then
    match fetch (convertGistToRawUrl filePath) with
    | .success (some canvasData) => .ok canvasData
    | .success none => .error "Unexpected token in JSON"
    | .failure statusText => .error ("Failed to load canvas file: " ++ statusText)
    | .networkError msg => .error msg
  else .error "Invalid file path"

/-- `loadCanvasForVueFlow`. -/
def loadCanvasForVueFlow (filePath : String) (fetch : String → FetchResult) :
    Except String (List VueFlowNodeA × List VueFlowEdge) :=
  match loadCanvasFile filePath fetch with
  | .error e => .error e
  | .ok canvasData =>
    .ok (convertNodesToVueFlow canvasData.nodes, convertEdgesToVueFlow canvasData.edges)

end CanvasLoader

/-! ## First `CanvasNode.vue` loader copy (two-argument `darkenColor`) -/

namespace CanvasNodeV2

/-- `r * (1 - percentage / 100)` rounded, the per-channel black mix. -/
def mixChannel (v : Int) (percentage : Frac) : Int :=
  Frac.jsRoundF
    (Frac.mul (Frac.ofInt v)
      (Frac.sub (Frac.ofInt 1) (Frac.div percentage (Frac.ofInt 100))))

/-- `darkenColor(color, percentage)`: mix the parsed color with black.
A `none` channel is `parseInt`'s NaN, which propagates to the output text. -/
def darkenColor (color : String) (percentage : Frac) : String :=
  if !(jsTruthyStr color) then "rgb(200, 200, 200)"
  else if jsStartsWith color "#" then
    let hex := jsSliceFrom color 1
    let r := parseIntHex (jsSlice hex 0 2)
    let g := parseIntHex (jsSlice hex 2 4)
    let b := parseIntHex (jsSlice hex 4 6)
    let newR := r.map (fun v => mixChannel v percentage)
    let newG := g.map (fun v => mixChannel v percentage)
    let newB := b.map (fun v => mixChannel v percentage)
    rgbStr (numToStr newR) (numToStr newG) (numToStr newB)
  else if jsStartsWith color "rgb" then
    match digitRuns color with
    | rv :: gv :: bv :: _ =>
      let newR := mixChannel (rv : Int) percentage
      let newG := mixChannel (gv : Int) percentage
      let newB := mixChannel (bv : Int) percentage
      rgbStr (toString newR) (toString newG) (toString newB)
    | _ => "rgb(200, 200, 200)"
  else "rgb(200, 200, 200)"

/-- `getVueFlowNodeType` (identical copy). -/
def getVueFlowNodeType (canvasType : String) : String :=
  if canvasType = "text" then "default"
  else if canvasType = "file" then "input"
  else "default"

/-- `getNodeLabel` (identical copy). -/
def getNodeLabel (node : CanvasNode) : String :=
  if jsTruthyOpt node.text then
    let firstLine := (jsSplit (node.text.getD "") '\n').headD ""
    if 50 < firstLine.length then jsSubstring0 firstLine 47 ++ "..." else firstLine
  else if jsTruthyOpt node.file then
    let f := node.file.getD ""
    let popped := (jsSplit f '/').getLastD ""
    if popped = "" then f else popped
  else node.type ++ " node"

/-- `convertNodesToVueFlow`: keeps only `text` and `file` nodes, then maps. -/
def convertNodesToVueFlow (canvasNodes : List CanvasNode) : List VueFlowNodeBC :=
  let filteredNodes :=
    canvasNodes.filter (fun node => node.type = "text" || node.type = "file")
  filteredNodes.map (fun node =>
    let originalBackgroundColor := jsOrElse node.color "#1c2127"
    let backgroundColor :=
      if jsTruthyOpt node.color then darkenColor originalBackgroundColor (Frac.ofInt 70)
      else "#1c2127"
    let borderColor :=
      if jsTruthyOpt node.color then darkenColor originalBackgroundColor (Frac.ofInt 30)
      else "#a1a1a1"
    { id := node.id
      type := getVueFlowNodeType node.type
      position := { x := node.x, y := node.y }
      data :=
        { label := getNodeLabel node
          content := jsOrElse node.text (jsOrElse node.file "")
          originalType := node.type
          width := node.width
          height := node.height
          color := node.color }
      style :=
        { backgroundColor := backgroundColor
          border := "4px solid " ++ borderColor
          borderRadius := "8px"
          fontSize := "14px" } })

/-- `convertEdgesToVueFlow`: the stroke is the darkened source color, with
the default gray substituted before darkening. -/
def convertEdgesToVueFlow (canvasEdges : List CanvasEdge) : List VueFlowEdge :=
  canvasEdges.map (fun edge =>
    { id := edge.id
      source := edge.fromNode
      target := edge.toNode
      sourceHandle := edge.fromSide
      targetHandle := edge.toSide
      style := { stroke := darkenColor (jsOrElse edge.color "#b1b1b7") (Frac.ofInt 50)
                 strokeWidth := 10 }
      type := "default" })

end CanvasNodeV2

/-! ## JavaScript float values for the HSL `darkenColor`

The three-argument `darkenColor` can reach NaN (failed `parseInt`) and
Infinity (division by an exact zero), and both flow through the HSL
arithmetic, so its numbers are modelled by `ℚ` extended with those values.
Comparisons involving NaN are false, arithmetic on NaN yields NaN, and
`0 * Infinity` is NaN, as in IEEE / JS. -/

inductive JsNum where
  | nan
  | posInf
  | negInf
  | fin (v : Frac)

namespace JsNum

/-- Value-zero test on a finite payload. -/
def zeroF (a : Frac) : Bool := Frac.beq a (Frac.ofInt 0)

/-- Value-positivity test on a finite payload. -/
def posF (a : Frac) : Bool := Frac.blt (Frac.ofInt 0) a

/-- JS `+`. -/
def add : JsNum → JsNum → JsNum
  | nan, _ => nan
  | _, nan => nan
  | posInf, negInf => nan
  | negInf, posInf => nan
  | posInf, _ => posInf
  | _, posInf => posInf
  | negInf, _ => negInf
  | _, negInf => negInf
  | fin a, fin b => fin (Frac.add a b)

/-- JS unary minus. -/
def neg : JsNum → JsNum
  | nan => nan
  | posInf => negInf
  | negInf => posInf
  | fin a => fin (Frac.neg a)

/-- JS `-`. -/
def sub (a b : JsNum) : JsNum := add a (neg b)

/-- JS `*` (`0 * Infinity` is NaN). -/
def mul : JsNum → JsNum → JsNum
  | nan, _ => nan
  | _, nan => nan
  | posInf, posInf => posInf
  | posInf, negInf => negInf
  | negInf, posInf => negInf
  | negInf, negInf => posInf
  | posInf, fin b => if zeroF b then nan else if posF b then posInf else negInf
  | fin a, posInf => if zeroF a then nan else if posF a then posInf else negInf
  | negInf, fin b => if zeroF b then nan else if posF b then negInf else posInf
  | fin a, negInf => if zeroF a then nan else if posF a then negInf else posInf
  | fin a, fin b => fin (Frac.mul a b)

/-- JS `/` (zeros are unsigned: a finite value divided by an exact zero
takes the sign of the numerator). -/
def div : JsNum → JsNum → JsNum
  | nan, _ => nan
  | _, nan => nan
  | posInf, posInf => nan
  | posInf, negInf => nan
  | negInf, posInf => nan
  | negInf, negInf => nan
  | posInf, fin b => if zeroF b || posF b then posInf else negInf
  | negInf, fin b => if zeroF b || posF b then negInf else posInf
  | fin _, posInf => fin (Frac.ofInt 0)
  | fin _, negInf => fin (Frac.ofInt 0)
  | fin a, fin b =>
    if zeroF b then (if zeroF a then nan else if posF a then posInf else negInf)
    else fin (Frac.div a b)

/-- JS `<` (false whenever either side is NaN). -/
def lt : JsNum → JsNum → Bool
  | nan, _ => false
  | _, nan => false
  | posInf, _ => false
  | negInf, negInf => false
  | negInf, _ => true
  | fin _, posInf => true
  | fin _, negInf => false
  | fin a, fin b => Frac.blt a b

/-- JS `Math.max` of two values (NaN-propagating). -/
def max2 : JsNum → JsNum → JsNum
  | nan, _ => nan
  | _, nan => nan
  | posInf, _ => posInf
  | _, posInf => posInf
  | negInf, b => b
  | a, negInf => a
  | fin a, fin b => fin (Frac.maxF a b)

/-- JS `Math.min` of two values (NaN-propagating). -/
def min2 : JsNum → JsNum → JsNum
  | nan, _ => nan
  | _, nan => nan
  | negInf, _ => negInf
  | _, negInf => negInf
  | posInf, b => b
  | a, posInf => a
  | fin a, fin b => fin (Frac.minF a b)

/-- JS `===` (NaN equals nothing, not even itself). -/
def strictEq : JsNum → JsNum → Bool
  | fin a, fin b => Frac.beq a b
  | posInf, posInf => true
  | negInf, negInf => true
  | _, _ => false

/-- JS `%` (remainder with the dividend's sign). -/
def mod : JsNum → JsNum → JsNum
  | nan, _ => nan
  | _, nan => nan
  | posInf, _ => nan
  | negInf, _ => nan
  | fin a, posInf => fin a
  | fin a, negInf => fin a
  | fin a, fin n =>
    if zeroF n then nan
    else fin (Frac.sub a (Frac.mul n (Frac.ofInt (Frac.truncF (Frac.div a n)))))

/-- `Math.round` followed by the template-literal rendering of the value. -/
def toIntStr : JsNum → String
  | nan => "NaN"
  | posInf => "Infinity"
  | negInf => "-Infinity"
  | fin a => toString (Frac.jsRoundF a)

end JsNum

/-! ## Second `CanvasNode.vue` loader copy (HSL `darkenColor`) -/

namespace CanvasNodeV3

/-- `parseInt` result as a JS number. -/
def jsNumOfParse : Option Int → JsNum
  | some v => JsNum.fin (Frac.ofInt v)
  | none => JsNum.nan

/-- The channel-extraction stage of the three-argument `darkenColor`:
`#`-prefixed input is hex-parsed unconditionally, `rgb`-prefixed input
uses its first three digit runs, everything else is rejected. -/
def parseColorChannels (color : String) : Option (JsNum × JsNum × JsNum) :=
  if jsStartsWith color "#" then
    let hex := jsSliceFrom color 1
    some (jsNumOfParse (parseIntHex (jsSlice hex 0 2)),
          jsNumOfParse (parseIntHex (jsSlice hex 2 4)),
          jsNumOfParse (parseIntHex (jsSlice hex 4 6)))
  else if jsStartsWith color "rgb" then
    match digitRuns color with
    | rv :: gv :: bv :: _ =>
      some (JsNum.fin (Frac.ofInt (rv : Int)), JsNum.fin (Frac.ofInt (gv : Int)),
            JsNum.fin (Frac.ofInt (bv : Int)))
    | _ => none
  else none

/-- `JsNum` integer literal, abbreviating `fin` of an embedded integer. -/
def jn (n : Int) : JsNum := JsNum.fin (Frac.ofInt n)

/-- The local `hue2rgb` helper. -/
def hue2rgb (p q t0 : JsNum) : JsNum :=
  let t1 := if JsNum.lt t0 (jn 0) then JsNum.add t0 (jn 1) else t0
  let t := if JsNum.lt (jn 1) t1 then JsNum.sub t1 (jn 1) else t1
  if JsNum.lt t (JsNum.fin (Frac.q 1 6)) then
    JsNum.add p (JsNum.mul (JsNum.mul (JsNum.sub q p) (jn 6)) t)
  else if JsNum.lt t (JsNum.fin (Frac.q 1 2)) then q
  else if JsNum.lt t (JsNum.fin (Frac.q 2 3)) then
    JsNum.add p (JsNum.mul (JsNum.mul (JsNum.sub q p) (jn 6))
      (JsNum.sub (JsNum.fin (Frac.q 2 3)) t))
  else p

/-- The RGB → HSL → shift/darken → RGB stage of the three-argument
`darkenColor`, on already-extracted channels. -/
def hslTransform (r g b : JsNum) (darkenPercentage hueShiftDegrees : Frac) : String :=
  let rNorm := JsNum.div r (jn 255)
  let gNorm := JsNum.div g (jn 255)
  let bNorm := JsNum.div b (jn 255)
  let maxC := JsNum.max2 (JsNum.max2 rNorm gNorm) bNorm
  let minC := JsNum.min2 (JsNum.min2 rNorm gNorm) bNorm
  let diff := JsNum.sub maxC minC
  let l := JsNum.div (JsNum.add maxC minC) (jn 2)
  let hs :=
    if !(JsNum.strictEq diff (jn 0)) then
      let s :=
        if JsNum.lt (JsNum.fin (Frac.q 1 2)) l then
          JsNum.div diff (JsNum.sub (JsNum.sub (jn 2) maxC) minC)
        else JsNum.div diff (JsNum.add maxC minC)
      let hRaw :=
        if JsNum.strictEq maxC rNorm then
          JsNum.add (JsNum.div (JsNum.sub gNorm bNorm) diff)
            (if JsNum.lt gNorm bNorm then jn 6 else jn 0)
        else if JsNum.strictEq maxC gNorm then
          JsNum.add (JsNum.div (JsNum.sub bNorm rNorm) diff) (jn 2)
        else if JsNum.strictEq maxC bNorm then
          JsNum.add (JsNum.div (JsNum.sub rNorm gNorm) diff) (jn 4)
        else jn 0
      (JsNum.div hRaw (jn 6), s)
    else (jn 0, jn 0)
  let h := hs.1
  let s := hs.2
  let hueShift := JsNum.div (JsNum.fin hueShiftDegrees) (jn 360)
  let newH := JsNum.mod (JsNum.add (JsNum.sub h hueShift) (jn 1)) (jn 1)
  let darkenFactor := JsNum.div (JsNum.fin darkenPercentage) (jn 100)
  let newL := JsNum.max2 (jn 0) (JsNum.mul l (JsNum.sub (jn 1) darkenFactor))
  let rgbOut :=
    if JsNum.strictEq s (jn 0) then (newL, newL, newL)
    else
      let q :=
        if JsNum.lt newL (JsNum.fin (Frac.q 1 2)) then
          JsNum.mul newL (JsNum.add (jn 1) s)
        else JsNum.sub (JsNum.add newL s) (JsNum.mul newL s)
      let p := JsNum.sub (JsNum.mul (jn 2) newL) q
      (hue2rgb p q (JsNum.add newH (JsNum.fin (Frac.q 1 3))),
       hue2rgb p q newH,
       hue2rgb p q (JsNum.sub newH (JsNum.fin (Frac.q 1 3))))
  rgbStr (JsNum.toIntStr (JsNum.mul rgbOut.1 (jn 255)))
         (JsNum.toIntStr (JsNum.mul rgbOut.2.1 (jn 255)))
         (JsNum.toIntStr (JsNum.mul rgbOut.2.2 (jn 255)))

/-- `darkenColor(color, darkenPercentage, hueShiftDegrees)`. -/
def darkenColor (color : String) (darkenPercentage hueShiftDegrees : Frac) : String :=
  if !(jsTruthyStr color) then "rgb(200, 200, 200)"
  else
    match parseColorChannels color with
    | none => "rgb(200, 200, 200)"
    | some (r, g, b) => hslTransform r g b darkenPercentage hueShiftDegrees

/-- `getVueFlowNodeType` (identical copy). -/
def getVueFlowNodeType (canvasType : String) : String :=
  if canvasType = "text" then "default"
  else if canvasType = "file" then "input"
  else "default"

/-- `getNodeLabel` (identical copy). -/
def getNodeLabel (node : CanvasNode) : String :=
  if jsTruthyOpt node.text then
    let firstLine := (jsSplit (node.text.getD "") '\n').headD ""
    if 50 < firstLine.length then jsSubstring0 firstLine 47 ++ "..." else firstLine
  else if jsTruthyOpt node.file then
    let f := node.file.getD ""
    let popped := (jsSplit f '/').getLastD ""
    if popped = "" then f else popped
  else node.type ++ " node"

/-- `convertNodesToVueFlow`: keeps only `text` and `file` nodes, then maps.
In this variant the border color is always derived, the background only
when a source color is present. -/
def convertNodesToVueFlow (canvasNodes : List CanvasNode) : List VueFlowNodeBC :=
  let filteredNodes :=
    canvasNodes.filter (fun node => node.type = "text" || node.type = "file")
  filteredNodes.map (fun node =>
    let originalBackgroundColor := jsOrElse node.color "#1c2127"
    let backgroundColor :=
      if jsTruthyOpt node.color then
        darkenColor originalBackgroundColor (Frac.ofInt 80) (Frac.ofInt 5)
      else "#1c2127"
    let borderColor := darkenColor originalBackgroundColor (Frac.ofInt 10) (Frac.ofInt 10)
    { id := node.id
      type := getVueFlowNodeType node.type
      position := { x := node.x, y := node.y }
      data :=
        { label := getNodeLabel node
          content := jsOrElse node.text (jsOrElse node.file "")
          originalType := node.type
          width := node.width
          height := node.height
          color := node.color }
      style :=
        { backgroundColor := backgroundColor
          border := "4px solid " ++ borderColor
          borderRadius := "8px"
          fontSize := "14px" } })

/-- `convertEdgesToVueFlow`: the stroke is `edge.color` verbatim (possibly
`undefined`), with no default and no darkening. -/
def convertEdgesToVueFlow (canvasEdges : List CanvasEdge) : List VueFlowEdgeOpt :=
  canvasEdges.map (fun edge =>
    { id := edge.id
      source := edge.fromNode
      target := edge.toNode
      sourceHandle := edge.fromSide
      targetHandle := edge.toSide
      style := { stroke := edge.color, strokeWidth := 8 }
      type := "default" })

end CanvasNodeV3

/-! ## `App.vue` URL parsing -/

namespace AppVue

/-- Result of `parseUrlForGistInfo`. -/
structure GistInfo where
  username : String
  gistId : String
deriving DecidableEq

/-- `parseUrlForGistInfo`, with `window.location.pathname` as the argument:
strip one leading slash, split on `/`, and accept exactly two truthy parts. -/
def parseUrlForGistInfo (pathname : String) : Option GistInfo :=
  let parts := jsSplit (stripLeadingSlash pathname) '/'
  if parts.length = 2 && jsTruthyStr (parts.getD 0 "") && jsTruthyStr (parts.getD 1 "") then
    some { username := parts.getD 0 "", gistId := parts.getD 1 "" }
  else none

/-- `constructGistUrl`. -/
def constructGistUrl (username gistId : String) : String :=
  "https://gist.github.com/" ++ username ++ "/" ++ gistId

end AppVue

/-! ## Generic lemmas about the string primitives -/

theorem splitOnChar_ne_nil (sep : Char) (l : List Char) : splitOnChar sep l ≠ [] := by
  induction l with
  | nil => simp [splitOnChar]
  | cons c rest ih =>
    simp only [splitOnChar]
    split
    · simp
    · cases h : splitOnChar sep rest <;> simp

theorem splitOnChar_head (sep : Char) (l : List Char) :
    (splitOnChar sep l).headD [] = l.takeWhile (fun c => !(c = sep)) := by
  induction l with
  | nil => rfl
  | cons c rest ih =>
    by_cases h : c = sep
    · simp [splitOnChar, List.takeWhile_cons, h]
    · cases hsp : splitOnChar sep rest with
      | nil => exact absurd hsp (splitOnChar_ne_nil sep rest)
      | cons hd tl =>
        rw [hsp] at ih
        simp only [List.headD_cons] at ih
        simp [splitOnChar, List.takeWhile_cons, h, hsp, ih]

theorem splitOnChar_of_not_mem (sep : Char) (l : List Char) (h : ¬ sep ∈ l) :
    splitOnChar sep l = [l] := by
  induction l with
  | nil => rfl
  | cons c rest ih =>
    simp only [List.mem_cons, not_or] at h
    have hcs : ¬ c = sep := fun hc => h.1 hc.symm
    simp [splitOnChar, hcs, ih h.2]

theorem jsSplit_headD (s : String) (sep : Char) :
    (jsSplit s sep).headD "" = String.mk (s.toList.takeWhile (fun c => !(c = sep))) := by
  unfold jsSplit
  cases hsp : splitOnChar sep s.toList with
  | nil => exact absurd hsp (splitOnChar_ne_nil sep s.toList)
  | cons hd tl =>
    have hh := splitOnChar_head sep s.toList
    rw [hsp] at hh
    simp only [List.headD_cons] at hh
    simp [hh]

/-! ## Claim theorems -/

/-- Claim C4: for every path whose stripped form splits into exactly two
non-empty segments, `parseUrlForGistInfo` returns exactly those segments
as `{username, gistId}` (the spec's `{owner, documentId}`); for every
other shape it returns `null`, and it is a total function (never throws). -/
theorem parseLocation_spec :
    (∀ path a b, jsSplit (stripLeadingSlash path) '/' = [a, b] → a ≠ "" → b ≠ "" →
        AppVue.parseUrlForGistInfo path = some { username := a, gistId := b }) ∧
    (∀ path, (¬ ∃ a b, jsSplit (stripLeadingSlash path) '/' = [a, b] ∧ a ≠ "" ∧ b ≠ "") →
        AppVue.parseUrlForGistInfo path = none) := by
  constructor
  · intro path a b hsp ha hb
    simp [AppVue.parseUrlForGistInfo, hsp, jsTruthyStr, ha, hb]
  · intro path hno
    simp only [AppVue.parseUrlForGistInfo]
    cases hsp : jsSplit (stripLeadingSlash path) '/' with
    | nil => simp
    | cons a t =>
      cases t with
      | nil => simp
      | cons b t2 =>
        cases t2 with
        | nil =>
          have hab : a = "" ∨ b = "" := by
            by_contra hcon
            push_neg at hcon
            exact hno ⟨a, b, hsp, hcon.1, hcon.2⟩
          rcases hab with h1 | h1 <;> simp [jsTruthyStr, h1]
        | cons c t3 => simp

/-- Witness for C4 at the concrete paths `/alice/abc123` (accepted) and
`/alice/` (rejected: its second segment is empty). -/
theorem parseLocation_spec_witness :
    AppVue.parseUrlForGistInfo "/alice/abc123" =
        some { username := "alice", gistId := "abc123" } ∧
    AppVue.parseUrlForGistInfo "/alice/" = none := by
  constructor
  · exact parseLocation_spec.1 "/alice/abc123" "alice" "abc123" (by decide)
      (by decide) (by decide)
  · refine parseLocation_spec.2 "/alice/" ?_
    rintro ⟨a, b, hab, ha, hb⟩
    rw [show jsSplit (stripLeadingSlash "/alice/") '/' = ["alice", ""] from by decide] at hab
    simp only [List.cons.injEq, and_true] at hab
    exact hb hab.2.symm

/-- Claim C8: an input already recognized as a raw-content URL (it contains
the raw host name) is returned unchanged by `convertGistToRawUrl`, and the
function is idempotent on such inputs. -/
theorem toRawContentUrl_idempotent (u : String)
    (h : jsIncludes u "gist.githubusercontent.com" = true) :
    CanvasLoader.convertGistToRawUrl u = u ∧
    CanvasLoader.convertGistToRawUrl (CanvasLoader.convertGistToRawUrl u) =
      CanvasLoader.convertGistToRawUrl u := by
  have h1 : CanvasLoader.convertGistToRawUrl u = u := by
    unfold CanvasLoader.convertGistToRawUrl
    simp [h]
  exact ⟨h1, by rw [h1, h1]⟩

/-- Witness for C8 at a concrete raw-content URL. -/
theorem toRawContentUrl_idempotent_witness :
    jsIncludes "https://gist.githubusercontent.com/alice/abc123/raw/f.canvas"
        "gist.githubusercontent.com" = true ∧
    CanvasLoader.convertGistToRawUrl
        "https://gist.githubusercontent.com/alice/abc123/raw/f.canvas" =
      "https://gist.githubusercontent.com/alice/abc123/raw/f.canvas" :=
  ⟨by decide,
   (toRawContentUrl_idempotent "https://gist.githubusercontent.com/alice/abc123/raw/f.canvas"
      (by decide)).1⟩

/-- Claim C9: on a human-browsing URL that is not raw, matches the gist
pattern, and carries a `#file-` fragment, `convertGistToRawUrl` produces
the raw URL whose filename is the fragment capture with every dash turned
into a dot. -/
theorem toRawContentUrl_fragment (url : String) (user gid frag : List Char)
    (hraw : jsIncludes url "gist.githubusercontent.com" = false)
    (hgist : jsIncludes url "gist.github.com" = true)
    (hmatch : CanvasLoader.gistSearch ((jsSplit url '#').headD "").toList = some (user, gid))
    (hfrag : CanvasLoader.fragSearch url.toList = some frag) :
    CanvasLoader.convertGistToRawUrl url =
      "https://gist.githubusercontent.com/" ++ String.mk user ++ "/" ++ String.mk gid ++
        "/raw/" ++ String.mk (frag.map (fun c => if c = '-' then '.' else c)) := by
  simp only [CanvasLoader.convertGistToRawUrl, hraw, hgist, Bool.false_eq_true, if_false,
    if_true, eq_self_iff_true, hmatch, hfrag]
  rfl

/-- Witness for C9: the fragment `#file-my-diagram-canvas` yields the
filename `my.diagram.canvas`. -/
theorem toRawContentUrl_fragment_witness :
    CanvasLoader.convertGistToRawUrl
        "https://gist.github.com/alice/abc123#file-my-diagram-canvas" =
      "https://gist.githubusercontent.com/alice/abc123/raw/my.diagram.canvas" := by
  have h := toRawContentUrl_fragment
    "https://gist.github.com/alice/abc123#file-my-diagram-canvas"
    "alice".toList "abc123".toList "my-diagram-canvas".toList
    (by decide) (by decide) (by decide) (by decide)
  exact h.trans (by decide)

/-- Claim C7: every failure mode of the load pipeline — unrecognized
location shape, non-success HTTP status, malformed JSON body — makes
`loadCanvasForVueFlow` fail with a single error, and a successful result
can only arise from a successfully fetched and parsed document, whose
nodes and edges are converted in full (no partial result). -/
theorem loadAndConvert_failure :
    (∀ fp fetch st, CanvasLoader.isGistUrl fp = true →
        fetch (CanvasLoader.convertGistToRawUrl fp) = CanvasLoader.FetchResult.failure st →
        CanvasLoader.loadCanvasForVueFlow fp fetch =
          Except.error ("Failed to load canvas file: " ++ st)) ∧
    (∀ fp fetch, CanvasLoader.isGistUrl fp = true →
        fetch (CanvasLoader.convertGistToRawUrl fp) = CanvasLoader.FetchResult.success none →
        CanvasLoader.loadCanvasForVueFlow fp fetch = Except.error "Unexpected token in JSON") ∧
    (∀ fp fetch, CanvasLoader.isGistUrl fp = false →
        CanvasLoader.loadCanvasForVueFlow fp fetch = Except.error "Invalid file path") ∧
    (∀ fp fetch nodes edges,
        CanvasLoader.loadCanvasForVueFlow fp fetch = Except.ok (nodes, edges) →
        ∃ d, fetch (CanvasLoader.convertGistToRawUrl fp) =
            CanvasLoader.FetchResult.success (some d) ∧
          nodes = CanvasLoader.convertNodesToVueFlow d.nodes ∧
          edges = CanvasLoader.convertEdgesToVueFlow d.edges) := by
  refine ⟨?_, ?_, ?_, ?_⟩
  · intro fp fetch st hg hf
    simp [CanvasLoader.loadCanvasForVueFlow, CanvasLoader.loadCanvasFile, hg, hf]
  · intro fp fetch hg hf
    simp [CanvasLoader.loadCanvasForVueFlow, CanvasLoader.loadCanvasFile, hg, hf]
  · intro fp fetch hg
    simp [CanvasLoader.loadCanvasForVueFlow, CanvasLoader.loadCanvasFile, hg]
  · intro fp fetch nodes edges hok
    simp only [CanvasLoader.loadCanvasForVueFlow, CanvasLoader.loadCanvasFile] at hok
    by_cases hg : CanvasLoader.isGistUrl fp
    · rw [if_pos hg] at hok
      cases hf : fetch (CanvasLoader.convertGistToRawUrl fp) with
      | success body =>
        cases body with
        | none => rw [hf] at hok; exact absurd hok (by simp)
        | some d =>
          rw [hf] at hok
          simp only [Except.ok.injEq, Prod.mk.injEq] at hok
          exact ⟨d, rfl, hok.1.symm, hok.2.symm⟩
      | failure st => rw [hf] at hok; exact absurd hok (by simp)
      | networkError msg => rw [hf] at hok; exact absurd hok (by simp)
    · rw [if_neg hg] at hok
      exact absurd hok (by simp)

/-- Witness for C7: a 404-style fetch failure surfaces as the load error,
and a non-gist path is rejected before any fetch. -/
theorem loadAndConvert_failure_witness :
    CanvasLoader.loadCanvasForVueFlow "https://gist.github.com/alice/abc123"
        (fun _ => CanvasLoader.FetchResult.failure "Not Found") =
      Except.error "Failed to load canvas file: Not Found" ∧
    CanvasLoader.loadCanvasForVueFlow "canvas/local.canvas"
        (fun _ => CanvasLoader.FetchResult.failure "Not Found") =
      Except.error "Invalid file path" :=
  ⟨loadAndConvert_failure.1 "https://gist.github.com/alice/abc123"
      (fun _ => CanvasLoader.FetchResult.failure "Not Found") "Not Found" (by decide) rfl,
   loadAndConvert_failure.2.2.1 "canvas/local.canvas"
      (fun _ => CanvasLoader.FetchResult.failure "Not Found") (by decide)⟩

/-- A node of the unhandled kind `group`, used to exhibit the permissive
behavior of the `canvasLoader.ts` converter. -/
def groupNode : CanvasNode :=
  { id := "g1", type := "group", x := 0, y := 0, width := 10, height := 10 }

/-- Counterexample to C1 as stated: the `canvasLoader.ts`
`convertNodesToVueFlow` does not filter, so a `group` node (neither `text`
nor `file`) still produces a display record. -/
theorem convertNodes_group_not_dropped :
    groupNode.type ≠ "text" ∧ groupNode.type ≠ "file" ∧
    (CanvasLoader.convertNodesToVueFlow [groupNode]).map (fun r => r.id) = ["g1"] :=
  ⟨by decide, by decide, rfl⟩

/-- Claim C1 (amended): the two `CanvasNode.vue` converter variants keep
exactly the `text` and `file` nodes, in order, and drop every other kind
silently; the `canvasLoader.ts` variant keeps every node. -/
theorem convertNodes_kind_filtering (ns : List CanvasNode) :
    ((CanvasLoader.convertNodesToVueFlow ns).map (fun r => r.id) =
        ns.map (fun n => n.id)) ∧
    ((CanvasNodeV2.convertNodesToVueFlow ns).map (fun r => r.id) =
        (ns.filter (fun n => n.type = "text" || n.type = "file")).map (fun n => n.id)) ∧
    ((CanvasNodeV3.convertNodesToVueFlow ns).map (fun r => r.id) =
        (ns.filter (fun n => n.type = "text" || n.type = "file")).map (fun n => n.id)) := by
  refine ⟨?_, ?_, ?_⟩ <;>
    simp [CanvasLoader.convertNodesToVueFlow, CanvasNodeV2.convertNodesToVueFlow,
      CanvasNodeV3.convertNodesToVueFlow, List.map_map, Function.comp]

/-- A red source edge, for the C3 counterexample. -/
def redEdge : CanvasEdge :=
  { id := "e1", fromNode := "a", fromSide := "right", toNode := "b", toSide := "left",
    color := some "#ff0000" }

/-- Counterexample to C3 as stated: the `canvasLoader.ts` edge converter
emits the source color verbatim (`#ff0000`), not the derived/darkened
color (which would be `rgb(128, 0, 0)` at the 50 % setting the V2 variant
uses); and the V3 variant leaves the stroke `undefined` when the source
color is unset, rather than any default gray. -/
theorem convertEdges_stroke_not_derived :
    (CanvasLoader.convertEdgesToVueFlow [redEdge]).map (fun e => e.style.stroke) =
        ["#ff0000"] ∧
    CanvasNodeV2.darkenColor "#ff0000" (Frac.ofInt 50) = "rgb(128, 0, 0)" ∧
    ("#ff0000" : String) ≠ "rgb(128, 0, 0)" ∧
    (CanvasNodeV3.convertEdgesToVueFlow [{ redEdge with color := none }]).map
        (fun e => e.style.stroke) = [none] :=
  ⟨rfl, by decide, by decide, rfl⟩

/-- Claim C3 (amended): only the first `CanvasNode.vue` variant derives the
stroke through the Color Deriver — it darkens `edge.color || '#b1b1b7'` by
50 %, so an unset color yields the darkened default gray
`rgb(89, 89, 92)`; the `canvasLoader.ts` variant uses the source color (or
the default gray `#b1b1b7`) with no derivation, and the second
`CanvasNode.vue` variant passes the source color through verbatim with no
default. -/
theorem convertEdges_stroke (es : List CanvasEdge) :
    ((CanvasNodeV2.convertEdgesToVueFlow es).map (fun e => e.style.stroke) =
        es.map (fun e => CanvasNodeV2.darkenColor (jsOrElse e.color "#b1b1b7") (Frac.ofInt 50))) ∧
    ((CanvasLoader.convertEdgesToVueFlow es).map (fun e => e.style.stroke) =
        es.map (fun e => jsOrElse e.color "#b1b1b7")) ∧
    ((CanvasNodeV3.convertEdgesToVueFlow es).map (fun e => e.style.stroke) =
        es.map (fun e => e.color)) ∧
    CanvasNodeV2.darkenColor "#b1b1b7" (Frac.ofInt 50) = "rgb(89, 89, 92)" := by
  refine ⟨?_, ?_, ?_, by decide⟩ <;>
    simp [CanvasLoader.convertEdgesToVueFlow, CanvasNodeV2.convertEdgesToVueFlow,
      CanvasNodeV3.convertEdgesToVueFlow, List.map_map, Function.comp]

/-- The first-line labelling rule as the spec words it: the text up to the
first line break; when that first line exceeds 50 characters, its
47-character prefix plus an ellipsis marker.  (Spec-side refinement target
for the source's `getNodeLabel`.) -/
def firstLineLabel (t : String) : String :=
  let firstLine := String.mk (t.toList.takeWhile (fun c => !(c = '\n')))
  if 50 < firstLine.length then String.mk (firstLine.toList.take 47) ++ "..." else firstLine

/-- The three `getNodeLabel` copies are definitionally identical. -/
theorem getNodeLabel_copies :
    CanvasNodeV2.getNodeLabel = CanvasLoader.getNodeLabel ∧
    CanvasNodeV3.getNodeLabel = CanvasLoader.getNodeLabel :=
  ⟨rfl, rfl⟩

/-- On a node with non-empty text, `getNodeLabel` implements the spec's
first-line rule. -/
theorem jsSplit_head_getD (s : String) (sep : Char) :
    (jsSplit s sep).head?.getD "" = String.mk (s.toList.takeWhile (fun c => !(c = sep))) := by
  rw [← List.headD_eq_head?_getD]
  exact jsSplit_headD s sep

theorem getNodeLabel_text (node : CanvasNode) (t : String)
    (ht : node.text = some t) (hne : t ≠ "") :
    CanvasLoader.getNodeLabel node = firstLineLabel t := by
  simp [CanvasLoader.getNodeLabel, firstLineLabel, ht, jsTruthyOpt, jsTruthyStr, hne,
    jsSplit_head_getD, jsSubstring0]

/-- On a node without usable text whose file path has last split segment
`seg ≠ ""`, the label is that final segment. -/
theorem getNodeLabel_file_seg (node : CanvasNode) (f seg : String)
    (ht : node.text = none ∨ node.text = some "") (hf : node.file = some f)
    (hseg : (jsSplit f '/').getLast? = some seg) (hsegne : seg ≠ "") :
    CanvasLoader.getNodeLabel node = seg := by
  have hfne : f ≠ "" := by
    rintro rfl
    rw [show jsSplit "" '/' = [""] from rfl] at hseg
    simp only [List.getLast?] at hseg
    exact hsegne (by injection hseg with h; exact h.symm)
  have htr : jsTruthyOpt node.text = false := by
    rcases ht with h | h <;> simp [h, jsTruthyOpt, jsTruthyStr]
  have htf : jsTruthyOpt (some f) = true := by
    simp [jsTruthyOpt, jsTruthyStr, hfne]
  simp only [CanvasLoader.getNodeLabel, htr, Bool.false_eq_true, if_false, hf, htf, if_true,
    eq_self_iff_true, Option.getD_some]
  rw [List.getLastD_eq_getLast?, hseg]
  simp [hsegne]

/-- On a node without usable text whose non-empty file path contains no
separator, the label is the whole path. -/
theorem getNodeLabel_file_nosep (node : CanvasNode) (f : String)
    (ht : node.text = none ∨ node.text = some "") (hf : node.file = some f)
    (hfne : f ≠ "") (hns : ¬ '/' ∈ f.toList) :
    CanvasLoader.getNodeLabel node = f := by
  refine getNodeLabel_file_seg node f f ht hf ?_ hfne
  unfold jsSplit
  rw [splitOnChar_of_not_mem '/' f.toList hns]
  simp [List.getLast?]

/-- On a node with neither usable text nor usable file, the label is the
kind followed by `" node"`. -/
theorem getNodeLabel_bare (node : CanvasNode)
    (ht : node.text = none ∨ node.text = some "")
    (hfi : node.file = none ∨ node.file = some "") :
    CanvasLoader.getNodeLabel node = node.type ++ " node" := by
  have htr : jsTruthyOpt node.text = false := by
    rcases ht with h | h <;> simp [h, jsTruthyOpt, jsTruthyStr]
  have hfr : jsTruthyOpt node.file = false := by
    rcases hfi with h | h <;> simp [h, jsTruthyOpt, jsTruthyStr]
  simp [CanvasLoader.getNodeLabel, htr, hfr]

/-- Claim C5: the label rules.  With non-empty text the label is the
spec's first-line rule (`firstLineLabel`), and in the truncation case it
is exactly 50 characters long; with no usable text and a file path, the
label is the final `/`-split segment, or the whole path when it has no
separator; with neither, the label is `"<kind> node"`.  The two
`CanvasNode.vue` copies of `getNodeLabel` are the same function. -/
theorem getNodeLabel_spec :
    (∀ node t, node.text = some t → t ≠ "" →
        CanvasLoader.getNodeLabel node = firstLineLabel t) ∧
    (∀ node t, node.text = some t → t ≠ "" →
        50 < (t.toList.takeWhile (fun c => !(c = '\n'))).length →
        (CanvasLoader.getNodeLabel node).length = 50) ∧
    (∀ node f seg, node.text = none ∨ node.text = some "" → node.file = some f →
        (jsSplit f '/').getLast? = some seg → seg ≠ "" →
        CanvasLoader.getNodeLabel node = seg) ∧
    (∀ node f, node.text = none ∨ node.text = some "" → node.file = some f →
        f ≠ "" → ¬ '/' ∈ f.toList → CanvasLoader.getNodeLabel node = f) ∧
    (∀ node, node.text = none ∨ node.text = some "" →
        node.file = none ∨ node.file = some "" →
        CanvasLoader.getNodeLabel node = node.type ++ " node") ∧
    CanvasNodeV2.getNodeLabel = CanvasLoader.getNodeLabel ∧
    CanvasNodeV3.getNodeLabel = CanvasLoader.getNodeLabel := by
  refine ⟨getNodeLabel_text, ?_, getNodeLabel_file_seg, getNodeLabel_file_nosep,
    getNodeLabel_bare, rfl, rfl⟩
  intro node t ht hne hlong
  rw [getNodeLabel_text node t ht hne]
  simp only [firstLineLabel]
  rw [if_pos (by simpa [String.length, String.toList] using hlong)]
  simp only [String.length_append]
  simp only [String.toList] at hlong
  simp [String.length, List.length_take]
  omega

/-- Concrete nodes exercising each label rule. -/
def labelTextNode : CanvasNode :=
  { id := "n1", type := "text", text := some "Hello\nWorld", x := 0, y := 0,
    width := 100, height := 50 }

/-- A text node whose first line is 60 characters long. -/
def labelLongNode : CanvasNode :=
  { id := "n2", type := "text", text := some (String.mk (List.replicate 60 'a')),
    x := 0, y := 0, width := 100, height := 50 }

/-- A file node with a multi-segment path. -/
def labelFileNode : CanvasNode :=
  { id := "n3", type := "file", file := some "a/b/c.md", x := 0, y := 0,
    width := 100, height := 50 }

/-- A file node whose path has no separator. -/
def labelNoSepNode : CanvasNode :=
  { id := "n4", type := "file", file := some "notes.canvas", x := 0, y := 0,
    width := 100, height := 50 }

/-- A node with neither text nor file content. -/
def labelBareNode : CanvasNode :=
  { id := "n5", type := "group", x := 0, y := 0, width := 100, height := 50 }

/-- Witness for C5 at the spec's own examples: `"Hello\nWorld"` yields
`"Hello"`, a 60-character first line yields a 50-character label,
`"a/b/c.md"` yields `"c.md"`, a separator-free path is returned whole,
and a contentless `group` node is labelled `"group node"`. -/
theorem getNodeLabel_spec_witness :
    CanvasLoader.getNodeLabel labelTextNode = "Hello" ∧
    (CanvasLoader.getNodeLabel labelLongNode).length = 50 ∧
    CanvasLoader.getNodeLabel labelFileNode = "c.md" ∧
    CanvasLoader.getNodeLabel labelNoSepNode = "notes.canvas" ∧
    CanvasLoader.getNodeLabel labelBareNode = "group node" := by
  refine ⟨?_, ?_, ?_, ?_, ?_⟩
  · exact (getNodeLabel_spec.1 labelTextNode "Hello\nWorld" rfl (by decide)).trans (by decide)
  · exact getNodeLabel_spec.2.1 labelLongNode (String.mk (List.replicate 60 'a')) rfl
      (by decide) (by decide)
  · exact getNodeLabel_spec.2.2.1 labelFileNode "a/b/c.md" "c.md" (Or.inl rfl) rfl
      (by decide) (by decide)
  · exact getNodeLabel_spec.2.2.2.1 labelNoSepNode "notes.canvas" (Or.inl rfl) rfl
      (by decide) (by decide)
  · exact getNodeLabel_spec.2.2.2.2.1 labelBareNode (Or.inl rfl) (Or.inl rfl)

/-- Claim C10: whenever a node carries non-empty text, every converter
variant derives the display record from the text — the label follows the
first-line rule and the `content` field is the text itself — regardless of
any file path also present.  (For the filtering variants this is stated
for the node kinds they keep.) -/
theorem convertNodes_text_precedence (node : CanvasNode) (t : String)
    (ht : node.text = some t) (hne : t ≠ "") :
    ((CanvasLoader.convertNodesToVueFlow [node]).map
        (fun r => (r.data.label, r.data.content)) = [(firstLineLabel t, t)]) ∧
    (node.type = "text" ∨ node.type = "file" →
      ((CanvasNodeV2.convertNodesToVueFlow [node]).map
          (fun r => (r.data.label, r.data.content)) = [(firstLineLabel t, t)]) ∧
      ((CanvasNodeV3.convertNodesToVueFlow [node]).map
          (fun r => (r.data.label, r.data.content)) = [(firstLineLabel t, t)])) := by
  have hlabel := getNodeLabel_text node t ht hne
  have hcontent : jsOrElse node.text (jsOrElse node.file "") = t := by
    simp [ht, jsOrElse, hne]
  constructor
  · simp [CanvasLoader.convertNodesToVueFlow, hlabel, hcontent]
  · intro hty
    have hkeep : (node.type = "text" || node.type = "file") = true := by
      rcases hty with h | h <;> simp [h]
    constructor
    · simp [CanvasNodeV2.convertNodesToVueFlow, List.filter, hkeep,
        getNodeLabel_copies.1, hlabel, hcontent]
    · simp [CanvasNodeV3.convertNodesToVueFlow, List.filter, hkeep,
        getNodeLabel_copies.2, hlabel, hcontent]

/-- A node carrying both a text and a file payload, for the C10 witness. -/
def textAndFileNode : CanvasNode :=
  { id := "n6", type := "text", text := some "Title\nbody", file := some "a/b.md",
    x := 0, y := 0, width := 100, height := 50 }

/-- Witness for C10: with both `text = "Title\nbody"` and `file = "a/b.md"`
present, all three converters label the node `"Title"` and set its content
to the text, ignoring the file path. -/
theorem convertNodes_text_precedence_witness :
    ((CanvasLoader.convertNodesToVueFlow [textAndFileNode]).map
        (fun r => (r.data.label, r.data.content)) = [("Title", "Title\nbody")]) ∧
    ((CanvasNodeV2.convertNodesToVueFlow [textAndFileNode]).map
        (fun r => (r.data.label, r.data.content)) = [("Title", "Title\nbody")]) ∧
    ((CanvasNodeV3.convertNodesToVueFlow [textAndFileNode]).map
        (fun r => (r.data.label, r.data.content)) = [("Title", "Title\nbody")]) := by
  have h := convertNodes_text_precedence textAndFileNode "Title\nbody" rfl (by decide)
  have h2 := h.2 (Or.inl rfl)
  exact ⟨h.1.trans (by decide), h2.1.trans (by decide), h2.2.trans (by decide)⟩

/-- Counterexample to C2 as stated: `"#zz0000"` is neither a `#rrggbb` hex
color nor an `rgb(r,g,b)` form, yet `darkenColor` hex-parses it because it
merely starts with `#`, producing the non-numeric `rgb(NaN, 0, 0)` instead
of the neutral gray; and an `rgb`-prefixed string with three digit runs is
processed as a color even when it is not of the `rgb(r,g,b)` form. -/
theorem darkenColor_malformed_not_gray :
    CanvasNodeV2.darkenColor "#zz0000" (Frac.ofInt 20) = "rgb(NaN, 0, 0)" ∧
    CanvasNodeV2.darkenColor "#zz0000" (Frac.ofInt 20) ≠ "rgb(200, 200, 200)" ∧
    CanvasNodeV2.darkenColor "rgbx 10 20 30" (Frac.ofInt 50) = "rgb(5, 10, 15)" ∧
    CanvasNodeV3.darkenColor "#zz0000" (Frac.ofInt 20) (Frac.ofInt 30) =
      "rgb(NaN, NaN, NaN)" :=
  ⟨by decide, by decide, by decide, by decide⟩

/-- A string starting with `rgb` does not start with `#`. -/
theorem startsWith_rgb_not_hash (c : String) (h : jsStartsWith c "rgb" = true) :
    jsStartsWith c "#" = false := by
  unfold jsStartsWith at h ⊢
  cases hc : c.toList with
  | nil =>
    rw [hc] at h
    exact absurd h (by decide)
  | cons a rest =>
    rw [hc] at h
    simp only [show "rgb".toList = ['r', 'g', 'b'] from rfl,
      show "#".toList = ['#'] from rfl, isPrefixList, Bool.and_eq_true,
      decide_eq_true_eq] at h ⊢
    simp [← h.1]

/-- A string starting with `rgb` is not empty. -/
theorem startsWith_rgb_ne_empty (c : String) (h : jsStartsWith c "rgb" = true) :
    c ≠ "" := by
  rintro rfl
  exact absurd h (by decide)

/-- Claim C2 (amended): the gray fallback `rgb(200, 200, 200)` is returned
for the absent/empty input, for every input that starts with neither `#`
nor `rgb`, and for an `rgb`-prefixed input containing fewer than three
digit runs — in both `darkenColor` variants.  (An input starting with `#`
is hex-parsed unconditionally and an `rgb`-prefixed input with three digit
runs is used as a color, so such malformed inputs are *not* mapped to the
gray; see the counterexample.) -/
theorem darkenColor_gray_fallback :
    (∀ p, CanvasNodeV2.darkenColor "" p = "rgb(200, 200, 200)") ∧
    (∀ c p, jsStartsWith c "#" = false → jsStartsWith c "rgb" = false →
        CanvasNodeV2.darkenColor c p = "rgb(200, 200, 200)") ∧
    (∀ c p, jsStartsWith c "rgb" = true → (digitRuns c).length < 3 →
        CanvasNodeV2.darkenColor c p = "rgb(200, 200, 200)") ∧
    (∀ dp hs, CanvasNodeV3.darkenColor "" dp hs = "rgb(200, 200, 200)") ∧
    (∀ c dp hs, jsStartsWith c "#" = false → jsStartsWith c "rgb" = false →
        CanvasNodeV3.darkenColor c dp hs = "rgb(200, 200, 200)") ∧
    (∀ c dp hs, jsStartsWith c "rgb" = true → (digitRuns c).length < 3 →
        CanvasNodeV3.darkenColor c dp hs = "rgb(200, 200, 200)") := by
  refine ⟨?_, ?_, ?_, ?_, ?_, ?_⟩
  · intro p; rfl
  · intro c p h1 h2
    by_cases hc : c = ""
    · rw [hc]; rfl
    · simp [CanvasNodeV2.darkenColor, jsTruthyStr, hc, h1, h2]
  · intro c p h1 hlen
    have hns := startsWith_rgb_not_hash c h1
    have hc := startsWith_rgb_ne_empty c h1
    rcases hr : digitRuns c with _ | ⟨rv, _ | ⟨gv, _ | ⟨bv, rest⟩⟩⟩
    · simp [CanvasNodeV2.darkenColor, jsTruthyStr, hc, hns, h1, hr]
    · simp [CanvasNodeV2.darkenColor, jsTruthyStr, hc, hns, h1, hr]
    · simp [CanvasNodeV2.darkenColor, jsTruthyStr, hc, hns, h1, hr]
    · rw [hr] at hlen; simp at hlen; omega
  · intro dp hs; rfl
  · intro c dp hs h1 h2
    by_cases hc : c = ""
    · rw [hc]; rfl
    · simp [CanvasNodeV3.darkenColor, CanvasNodeV3.parseColorChannels, jsTruthyStr,
        hc, h1, h2]
  · intro c dp hs h1 hlen
    have hns := startsWith_rgb_not_hash c h1
    have hc := startsWith_rgb_ne_empty c h1
    rcases hr : digitRuns c with _ | ⟨rv, _ | ⟨gv, _ | ⟨bv, rest⟩⟩⟩
    · simp [CanvasNodeV3.darkenColor, CanvasNodeV3.parseColorChannels, jsTruthyStr,
        hc, hns, h1, hr]
    · simp [CanvasNodeV3.darkenColor, CanvasNodeV3.parseColorChannels, jsTruthyStr,
        hc, hns, h1, hr]
    · simp [CanvasNodeV3.darkenColor, CanvasNodeV3.parseColorChannels, jsTruthyStr,
        hc, hns, h1, hr]
    · rw [hr] at hlen; simp at hlen; omega

/-- Witness for C2 (amended) at concrete inputs: the empty input, the
non-color word `blue`, and the truncated form `rgb(1, 2)`. -/
theorem darkenColor_gray_fallback_witness :
    CanvasNodeV2.darkenColor "" (Frac.ofInt 20) = "rgb(200, 200, 200)" ∧
    CanvasNodeV2.darkenColor "blue" (Frac.ofInt 20) = "rgb(200, 200, 200)" ∧
    CanvasNodeV2.darkenColor "rgb(1, 2)" (Frac.ofInt 20) = "rgb(200, 200, 200)" ∧
    CanvasNodeV3.darkenColor "blue" (Frac.ofInt 100) (Frac.ofInt 30) =
      "rgb(200, 200, 200)" :=
  ⟨darkenColor_gray_fallback.1 (Frac.ofInt 20),
   darkenColor_gray_fallback.2.1 "blue" (Frac.ofInt 20) (by decide) (by decide),
   darkenColor_gray_fallback.2.2.1 "rgb(1, 2)" (Frac.ofInt 20) (by decide) (by decide),
   darkenColor_gray_fallback.2.2.2.2.1 "blue" (Frac.ofInt 100) (Frac.ofInt 30)
     (by decide) (by decide)⟩

/-! ## Value semantics of `Frac` and `JsNum` -/

namespace Frac

theorem den_posQ (a : Frac) : (0 : ℚ) < (a.den : ℚ) := by exact_mod_cast a.den_pos

theorem den_neQ (a : Frac) : ((a.den : ℚ)) ≠ 0 := ne_of_gt (den_posQ a)

theorem toRat_ofInt (n : Int) : toRat (ofInt n) = (n : ℚ) := by simp [toRat, ofInt]

theorem toRat_add (a b : Frac) : toRat (add a b) = toRat a + toRat b := by
  have ha := den_neQ a
  have hb := den_neQ b
  simp only [toRat, add]
  push_cast
  field_simp

theorem toRat_neg (a : Frac) : toRat (neg a) = -toRat a := by
  simp [toRat, neg, neg_div]

theorem toRat_sub (a b : Frac) : toRat (sub a b) = toRat a - toRat b := by
  rw [sub, toRat_add, toRat_neg]
  ring

theorem toRat_mul (a b : Frac) : toRat (mul a b) = toRat a * toRat b := by
  have ha := den_neQ a
  have hb := den_neQ b
  simp only [toRat, mul]
  push_cast
  field_simp

theorem toRat_div (a b : Frac) (hb : toRat b ≠ 0) :
    toRat (div a b) = toRat a / toRat b := by
  have hbnum : b.num ≠ 0 := by
    intro h
    exact hb (by simp [toRat, h])
  have hbd := den_neQ b
  have had := den_neQ a
  unfold div
  split
  · rename_i h1
    have hbq : ((b.num : ℚ)) ≠ 0 := by exact_mod_cast hbnum
    simp only [toRat]
    push_cast
    field_simp
  · split
    · rename_i h1 h2
      have hbq : ((b.num : ℚ)) ≠ 0 := by exact_mod_cast hbnum
      simp only [toRat]
      push_cast
      field_simp
    · rename_i h1 h2
      omega

theorem beq_iff (a b : Frac) : beq a b = true ↔ toRat a = toRat b := by
  rw [beq, decide_eq_true_eq, toRat, toRat,
    div_eq_div_iff (den_neQ a) (den_neQ b)]
  exact_mod_cast Iff.rfl

theorem blt_iff (a b : Frac) : blt a b = true ↔ toRat a < toRat b := by
  rw [blt, decide_eq_true_eq, toRat, toRat,
    div_lt_div_iff (den_posQ a) (den_posQ b)]
  exact_mod_cast Iff.rfl

theorem beq_false_iff (a b : Frac) : beq a b = false ↔ toRat a ≠ toRat b := by
  rw [Ne, ← beq_iff]
  cases beq a b <;> simp

theorem toRat_maxF (a b : Frac) : toRat (maxF a b) = max (toRat a) (toRat b) := by
  unfold maxF
  by_cases h : blt a b = true
  · rw [if_pos h, max_eq_right (le_of_lt ((blt_iff a b).mp h))]
  · have hle : toRat b ≤ toRat a :=
      not_lt.mp (fun hh => h ((blt_iff a b).mpr hh))
    rw [if_neg h, max_eq_left hle]

theorem toRat_minF (a b : Frac) : toRat (minF a b) = min (toRat a) (toRat b) := by
  unfold minF
  by_cases h : blt a b = true
  · rw [if_pos h, min_eq_left (le_of_lt ((blt_iff a b).mp h))]
  · have hle : toRat b ≤ toRat a :=
      not_lt.mp (fun hh => h ((blt_iff a b).mpr hh))
    rw [if_neg h, min_eq_right hle]

theorem fdiv_eq_floorQ (n d : Int) (hd : 0 < d) :
    Int.fdiv n d = ⌊(n : ℚ) / (d : ℚ)⌋ := by
  have hid : n.fmod d + d * n.fdiv d = n := Int.fmod_add_fdiv n d
  have h0 : 0 ≤ n.fmod d := Int.fmod_nonneg' n hd
  have h1 : n.fmod d < d := Int.fmod_lt_of_pos n hd
  have hdq : (0 : ℚ) < (d : ℚ) := by exact_mod_cast hd
  symm
  rw [Int.floor_eq_iff]
  constructor
  · rw [le_div_iff hdq]
    have hX : n.fdiv d * d ≤ n := by rw [mul_comm]; omega
    exact_mod_cast hX
  · rw [div_lt_iff hdq]
    have hX : n < (n.fdiv d + 1) * d := by rw [add_mul, one_mul, mul_comm]; omega
    exact_mod_cast hX

theorem jsRoundF_toRat (a : Frac) : jsRoundF a = ⌊toRat a + 1 / 2⌋ := by
  have had := den_neQ a
  unfold jsRoundF
  rw [fdiv_eq_floorQ _ _ (by have := a.den_pos; omega)]
  congr 1
  unfold toRat
  push_cast
  field_simp
  ring

end Frac

namespace JsNum

theorem add_fin (a b : Frac) : add (fin a) (fin b) = fin (Frac.add a b) := rfl

theorem sub_fin (a b : Frac) : sub (fin a) (fin b) = fin (Frac.sub a b) := rfl

theorem mul_fin (a b : Frac) : mul (fin a) (fin b) = fin (Frac.mul a b) := rfl

theorem max2_fin (a b : Frac) : max2 (fin a) (fin b) = fin (Frac.maxF a b) := rfl

theorem min2_fin (a b : Frac) : min2 (fin a) (fin b) = fin (Frac.minF a b) := rfl

theorem lt_fin (a b : Frac) : lt (fin a) (fin b) = Frac.blt a b := rfl

theorem strictEq_fin (a b : Frac) : strictEq (fin a) (fin b) = Frac.beq a b := rfl

theorem div_fin (a b : Frac) (h : Frac.beq b (Frac.ofInt 0) = false) :
    div (fin a) (fin b) = fin (Frac.div a b) := by
  simp [div, zeroF, h]

theorem mod_fin (a n : Frac) (h : Frac.beq n (Frac.ofInt 0) = false) :
    mod (fin a) (fin n) =
      fin (Frac.sub a (Frac.mul n (Frac.ofInt (Frac.truncF (Frac.div a n))))) := by
  simp [mod, zeroF, h]

end JsNum

/-- A value-zero channel renders as `"0"` after the 255 scale-up and
rounding. -/
theorem toIntStr_mul255_zero (f : Frac) (h : Frac.toRat f = 0) :
    JsNum.toIntStr (JsNum.mul (JsNum.fin f) (JsNum.fin (Frac.ofInt 255))) = "0" := by
  simp only [JsNum.mul_fin, JsNum.toIntStr]
  rw [Frac.jsRoundF_toRat, Frac.toRat_mul, h, Frac.toRat_ofInt]
  rw [show ((0 : ℚ) * (255 : Int) + 1 / 2) = 1 / 2 by push_cast; ring]
  rw [show ⌊(1 / 2 : ℚ)⌋ = 0 by rw [Int.floor_eq_iff] <;> norm_num]
  rfl

/-- `hue2rgb` with value-zero `p` and `q` returns a value-zero finite
number, whatever the finite `t` argument. -/
theorem hue2rgb_zero (p q t : Frac) (hp : Frac.toRat p = 0) (hq : Frac.toRat q = 0) :
    ∃ f, CanvasNodeV3.hue2rgb (JsNum.fin p) (JsNum.fin q) (JsNum.fin t) = JsNum.fin f ∧
      Frac.toRat f = 0 := by
  simp only [CanvasNodeV3.hue2rgb, CanvasNodeV3.jn, JsNum.lt_fin, JsNum.add_fin,
    JsNum.sub_fin, JsNum.mul_fin]
  split <;> split <;> split <;>
    first
      | exact ⟨_, rfl, by
          simp [Frac.toRat_add, Frac.toRat_sub, Frac.toRat_mul, Frac.toRat_ofInt, hp, hq]⟩
      | (split <;>
          first
            | exact ⟨_, rfl, by
                simp [Frac.toRat_add, Frac.toRat_sub, Frac.toRat_mul, Frac.toRat_ofInt,
                  hp, hq]⟩
            | (split <;>
                exact ⟨_, rfl, by
                  simp [Frac.toRat_add, Frac.toRat_sub, Frac.toRat_mul, Frac.toRat_ofInt,
                    hp, hq]⟩))

/-- A `hue2rgb` channel with value-zero `p` and `q` renders as `"0"`. -/
theorem hue2rgb_zero_channel (p q t : Frac)
    (hp : Frac.toRat p = 0) (hq : Frac.toRat q = 0) :
    JsNum.toIntStr ((CanvasNodeV3.hue2rgb (JsNum.fin p) (JsNum.fin q)
      (JsNum.fin t)).mul (JsNum.fin (Frac.ofInt 255))) = "0" := by
  obtain ⟨f, hf, hfv⟩ := hue2rgb_zero p q t hp hq
  rw [hf]
  exact toIntStr_mul255_zero f hfv

/-- The `hRaw` switch always yields a finite number once `diff` is finite
and value-nonzero. -/
theorem exists_fin_switch (mx rN gN bN df : Frac)
    (hdfb : Frac.beq df (Frac.ofInt 0) = false) :
    ∃ hf : Frac,
      (if mx.beq rN = true then
          ((JsNum.fin (gN.sub bN)).div (JsNum.fin df)).add
            (if gN.blt bN = true then JsNum.fin (Frac.ofInt 6) else JsNum.fin (Frac.ofInt 0))
        else if mx.beq gN = true then
          ((JsNum.fin (bN.sub rN)).div (JsNum.fin df)).add (JsNum.fin (Frac.ofInt 2))
        else if mx.beq bN = true then
          ((JsNum.fin (rN.sub gN)).div (JsNum.fin df)).add (JsNum.fin (Frac.ofInt 4))
        else JsNum.fin (Frac.ofInt 0)) = JsNum.fin hf := by
  simp only [JsNum.div_fin _ _ hdfb]
  repeat' split
  all_goals exact ⟨_, rfl⟩

theorem hslTransform_black (r g b shift : Frac)
    (hr0 : 0 ≤ Frac.toRat r) (hr1 : Frac.toRat r ≤ 255)
    (hg0 : 0 ≤ Frac.toRat g) (hg1 : Frac.toRat g ≤ 255)
    (hb0 : 0 ≤ Frac.toRat b) (hb1 : Frac.toRat b ≤ 255) :
    CanvasNodeV3.hslTransform (JsNum.fin r) (JsNum.fin g) (JsNum.fin b)
      (Frac.ofInt 100) shift = "rgb(0, 0, 0)" := by
  have h255 : Frac.beq (Frac.ofInt 255) (Frac.ofInt 0) = false := by decide
  have h2z : Frac.beq (Frac.ofInt 2) (Frac.ofInt 0) = false := by decide
  have h6z : Frac.beq (Frac.ofInt 6) (Frac.ofInt 0) = false := by decide
  have h100z : Frac.beq (Frac.ofInt 100) (Frac.ofInt 0) = false := by decide
  have h360z : Frac.beq (Frac.ofInt 360) (Frac.ofInt 0) = false := by decide
  have h1z : Frac.beq (Frac.ofInt 1) (Frac.ofInt 0) = false := by decide
  have h255q : Frac.toRat (Frac.ofInt 255) ≠ 0 := by
    rw [Frac.toRat_ofInt]; norm_num
  have h2q : Frac.toRat (Frac.ofInt 2) ≠ 0 := by rw [Frac.toRat_ofInt]; norm_num
  have h100q : Frac.toRat (Frac.ofInt 100) ≠ 0 := by rw [Frac.toRat_ofInt]; norm_num
  simp only [CanvasNodeV3.hslTransform, CanvasNodeV3.jn]
  rw [JsNum.div_fin r _ h255, JsNum.div_fin g _ h255, JsNum.div_fin b _ h255]
  simp only [JsNum.max2_fin, JsNum.min2_fin, JsNum.sub_fin, JsNum.add_fin, JsNum.mul_fin,
    JsNum.lt_fin, JsNum.strictEq_fin]
  set rN := r.div (Frac.ofInt 255) with hrN
  set gN := g.div (Frac.ofInt 255) with hgN
  set bN := b.div (Frac.ofInt 255) with hbN
  set mx := (rN.maxF gN).maxF bN with hmx
  set mn := (rN.minF gN).minF bN with hmn
  set df := mx.sub mn with hdf
  set lsum := mx.add mn with hlsum
  rw [JsNum.div_fin lsum _ h2z, JsNum.div_fin (Frac.ofInt 100) _ h100z,
    JsNum.div_fin shift _ h360z]
  simp only [JsNum.max2_fin, JsNum.min2_fin, JsNum.sub_fin, JsNum.add_fin, JsNum.mul_fin,
    JsNum.lt_fin, JsNum.strictEq_fin]
  set lf := lsum.div (Frac.ofInt 2) with hlf
  set dfac := (Frac.ofInt 100).div (Frac.ofInt 100) with hdfac
  set hsh := shift.div (Frac.ofInt 360) with hhsh
  set nL := (Frac.ofInt 0).maxF (lf.mul ((Frac.ofInt 1).sub dfac)) with hnL
  -- rational values
  have hrNv : Frac.toRat rN = Frac.toRat r / 255 := by
    rw [hrN, Frac.toRat_div _ _ h255q, Frac.toRat_ofInt]; norm_num
  have hgNv : Frac.toRat gN = Frac.toRat g / 255 := by
    rw [hgN, Frac.toRat_div _ _ h255q, Frac.toRat_ofInt]; norm_num
  have hbNv : Frac.toRat bN = Frac.toRat b / 255 := by
    rw [hbN, Frac.toRat_div _ _ h255q, Frac.toRat_ofInt]; norm_num
  have hrN01 : 0 ≤ Frac.toRat rN ∧ Frac.toRat rN ≤ 1 := by
    rw [hrNv]; constructor <;> [positivity; linarith]
  have hgN01 : 0 ≤ Frac.toRat gN ∧ Frac.toRat gN ≤ 1 := by
    rw [hgNv]; constructor <;> [positivity; linarith]
  have hbN01 : 0 ≤ Frac.toRat bN ∧ Frac.toRat bN ≤ 1 := by
    rw [hbNv]; constructor <;> [positivity; linarith]
  have hmxv : Frac.toRat mx =
      max (max (Frac.toRat rN) (Frac.toRat gN)) (Frac.toRat bN) := by
    rw [hmx, Frac.toRat_maxF, Frac.toRat_maxF]
  have hmnv : Frac.toRat mn =
      min (min (Frac.toRat rN) (Frac.toRat gN)) (Frac.toRat bN) := by
    rw [hmn, Frac.toRat_minF, Frac.toRat_minF]
  have hmx1 : Frac.toRat mx ≤ 1 := by
    rw [hmxv]; exact max_le (max_le hrN01.2 hgN01.2) hbN01.2
  have hmn0 : 0 ≤ Frac.toRat mn := by
    rw [hmnv]; exact le_min (le_min hrN01.1 hgN01.1) hbN01.1
  have hmnmx : Frac.toRat mn ≤ Frac.toRat mx := by
    rw [hmxv, hmnv]
    calc min (min (Frac.toRat rN) (Frac.toRat gN)) (Frac.toRat bN)
        ≤ min (Frac.toRat rN) (Frac.toRat gN) := min_le_left _ _
      _ ≤ Frac.toRat rN := min_le_left _ _
      _ ≤ max (Frac.toRat rN) (Frac.toRat gN) := le_max_left _ _
      _ ≤ max (max (Frac.toRat rN) (Frac.toRat gN)) (Frac.toRat bN) := le_max_left _ _
  have hdfv : Frac.toRat df = Frac.toRat mx - Frac.toRat mn := by
    rw [hdf, Frac.toRat_sub]
  have hlsumv : Frac.toRat lsum = Frac.toRat mx + Frac.toRat mn := by
    rw [hlsum, Frac.toRat_add]
  have hlfv : Frac.toRat lf = (Frac.toRat mx + Frac.toRat mn) / 2 := by
    rw [hlf, Frac.toRat_div _ _ h2q, hlsumv, Frac.toRat_ofInt]; norm_num
  have hdfacv : Frac.toRat dfac = 1 := by
    rw [hdfac, Frac.toRat_div _ _ h100q, Frac.toRat_ofInt]; norm_num
  have hnLv : Frac.toRat nL = 0 := by
    rw [hnL, Frac.toRat_maxF, Frac.toRat_mul, Frac.toRat_sub, Frac.toRat_ofInt,
      Frac.toRat_ofInt, hdfacv]
    norm_num
  have hq12 : Frac.toRat (Frac.q 1 2) = 1 / 2 := by
    rw [show Frac.q 1 2 = ⟨1, 2, by norm_num⟩ from by rw [Frac.q]; norm_num]
    unfold Frac.toRat
    norm_num
  by_cases hdfb : df.beq (Frac.ofInt 0) = true
  · -- achromatic: the saturation is zero and newL is zero
    simp only [hdfb, Bool.not_true, Bool.false_eq_true, if_false,
      show (Frac.ofInt 0).beq (Frac.ofInt 0) = true from by decide, if_true,
      JsNum.strictEq_fin]
    rw [toIntStr_mul255_zero nL hnLv]
    rfl
  · -- chromatic: the saturation is finite and nonzero, newL is zero
    have hdfb' : df.beq (Frac.ofInt 0) = false := Bool.eq_false_iff.mpr hdfb
    have hdfvne : Frac.toRat df ≠ 0 := by
      have h := (Frac.beq_false_iff df (Frac.ofInt 0)).mp hdfb'
      rwa [Frac.toRat_ofInt, Int.cast_zero] at h
    simp only [hdfb', Bool.not_false, eq_self_iff_true, if_true]
    have hc4 : nL.blt (Frac.q 1 2) = true :=
      (Frac.blt_iff _ _).mpr (by rw [hnLv, hq12]; norm_num)
    by_cases hlt : (Frac.q 1 2).blt lf = true
    · simp only [hlt, eq_self_iff_true, if_true]
      have hdenne : Frac.toRat (((Frac.ofInt 2).sub mx).sub mn) ≠ 0 := by
        rw [Frac.toRat_sub, Frac.toRat_sub, Frac.toRat_ofInt]
        push_cast
        intro h0
        apply hdfvne
        rw [hdfv]
        linarith
      have hdenb : Frac.beq (((Frac.ofInt 2).sub mx).sub mn) (Frac.ofInt 0) = false := by
        rw [Frac.beq_false_iff, Frac.toRat_ofInt, Int.cast_zero]
        exact hdenne
      rw [JsNum.div_fin df _ hdenb]
      set sf := df.div (((Frac.ofInt 2).sub mx).sub mn) with hsf
      have hsfv : Frac.toRat sf ≠ 0 := by
        rw [hsf, Frac.toRat_div _ _ hdenne]
        exact div_ne_zero hdfvne hdenne
      have hsfb : Frac.beq sf (Frac.ofInt 0) = false := by
        rw [Frac.beq_false_iff, Frac.toRat_ofInt, Int.cast_zero]
        exact hsfv
      simp only [JsNum.strictEq_fin, hsfb, Bool.false_eq_true, if_false, hc4,
        eq_self_iff_true, if_true]
      obtain ⟨hf, hhf⟩ := exists_fin_switch mx rN gN bN df hdfb'
      rw [hhf, JsNum.div_fin hf _ h6z]
      simp only [JsNum.sub_fin, JsNum.add_fin, JsNum.mul_fin]
      rw [JsNum.mod_fin _ _ h1z]
      simp only [JsNum.sub_fin, JsNum.add_fin, JsNum.mul_fin]
      have hqv : Frac.toRat (nL.mul ((Frac.ofInt 1).add sf)) = 0 := by
        rw [Frac.toRat_mul, hnLv]
        ring
      have hpv : Frac.toRat
          (((Frac.ofInt 2).mul nL).sub (nL.mul ((Frac.ofInt 1).add sf))) = 0 := by
        rw [Frac.toRat_sub, Frac.toRat_mul, hnLv, hqv]
        ring
      rw [hue2rgb_zero_channel _ _ _ hpv hqv, hue2rgb_zero_channel _ _ _ hpv hqv,
        hue2rgb_zero_channel _ _ _ hpv hqv]
      rfl
    · have hlt' : (Frac.q 1 2).blt lf = false := Bool.eq_false_iff.mpr hlt
      simp only [hlt', Bool.false_eq_true, if_false]
      have hdenne : Frac.toRat lsum ≠ 0 := by
        rw [hlsumv]
        intro h0
        apply hdfvne
        rw [hdfv]
        linarith
      have hdenb : Frac.beq lsum (Frac.ofInt 0) = false := by
        rw [Frac.beq_false_iff, Frac.toRat_ofInt, Int.cast_zero]
        exact hdenne
      rw [JsNum.div_fin df _ hdenb]
      set sf := df.div lsum with hsf
      have hsfv : Frac.toRat sf ≠ 0 := by
        rw [hsf, Frac.toRat_div _ _ hdenne]
        exact div_ne_zero hdfvne hdenne
      have hsfb : Frac.beq sf (Frac.ofInt 0) = false := by
        rw [Frac.beq_false_iff, Frac.toRat_ofInt, Int.cast_zero]
        exact hsfv
      simp only [JsNum.strictEq_fin, hsfb, Bool.false_eq_true, if_false, hc4,
        eq_self_iff_true, if_true]
      obtain ⟨hf, hhf⟩ := exists_fin_switch mx rN gN bN df hdfb'
      rw [hhf, JsNum.div_fin hf _ h6z]
      simp only [JsNum.sub_fin, JsNum.add_fin, JsNum.mul_fin]
      rw [JsNum.mod_fin _ _ h1z]
      simp only [JsNum.sub_fin, JsNum.add_fin, JsNum.mul_fin]
      have hqv : Frac.toRat (nL.mul ((Frac.ofInt 1).add sf)) = 0 := by
        rw [Frac.toRat_mul, hnLv]
        ring
      have hpv : Frac.toRat
          (((Frac.ofInt 2).mul nL).sub (nL.mul ((Frac.ofInt 1).add sf))) = 0 := by
        rw [Frac.toRat_sub, Frac.toRat_mul, hnLv, hqv]
        ring
      rw [hue2rgb_zero_channel _ _ _ hpv hqv, hue2rgb_zero_channel _ _ _ hpv hqv,
        hue2rgb_zero_channel _ _ _ hpv hqv]
      rfl

/-- Counterexample to C6 as stated: with `darkenPercent = 100`, an absent
or unrecognized input still returns the gray fallback rather than black,
and an in-form `rgb` input with an out-of-range channel yields NaN. -/
theorem darkenColor_full_darken_fallback :
    CanvasNodeV3.darkenColor "" (Frac.ofInt 100) (Frac.ofInt 0) = "rgb(200, 200, 200)" ∧
    CanvasNodeV3.darkenColor "blue" (Frac.ofInt 100) (Frac.ofInt 0) =
      "rgb(200, 200, 200)" ∧
    CanvasNodeV3.darkenColor "rgb(510, 0, 0)" (Frac.ofInt 100) (Frac.ofInt 0) =
      "rgb(NaN, NaN, NaN)" ∧
    ("rgb(200, 200, 200)" : String) ≠ "rgb(0, 0, 0)" :=
  ⟨by decide, by decide, by decide, by decide⟩

/-- Claim C6 (amended): `darkenColor` with `darkenPercent = 100` collapses
to black — `rgb(0, 0, 0)` — for every hue shift and every input color
whose extracted channels are finite values within 0–255 (every well-formed
`#rrggbb` hex and every in-range `rgb(r,g,b)`); inputs that do not parse
keep the gray fallback instead, and out-of-range channels can produce NaN
(see the counterexample). -/
theorem darkenColor_full_darken (color : String) (shift : Frac) (r g b : Frac)
    (hp : CanvasNodeV3.parseColorChannels color =
        some (JsNum.fin r, JsNum.fin g, JsNum.fin b))
    (hr0 : 0 ≤ Frac.toRat r) (hr1 : Frac.toRat r ≤ 255)
    (hg0 : 0 ≤ Frac.toRat g) (hg1 : Frac.toRat g ≤ 255)
    (hb0 : 0 ≤ Frac.toRat b) (hb1 : Frac.toRat b ≤ 255) :
    CanvasNodeV3.darkenColor color (Frac.ofInt 100) shift = "rgb(0, 0, 0)" := by
  have hc : color ≠ "" := by
    rintro rfl
    rw [show CanvasNodeV3.parseColorChannels "" = none from rfl] at hp
    exact absurd hp (by simp)
  have ht : jsTruthyStr color = true := by simp [jsTruthyStr, hc]
  simp only [CanvasNodeV3.darkenColor, ht, Bool.not_true, Bool.false_eq_true, if_false, hp]
  exact hslTransform_black r g b shift hr0 hr1 hg0 hg1 hb0 hb1

/-- Witness for C6 (amended) at `#ff0000` with a 30° hue shift. -/
theorem darkenColor_full_darken_witness :
    CanvasNodeV3.parseColorChannels "#ff0000" =
      some (JsNum.fin (Frac.ofInt 255), JsNum.fin (Frac.ofInt 0),
        JsNum.fin (Frac.ofInt 0)) ∧
    CanvasNodeV3.darkenColor "#ff0000" (Frac.ofInt 100) (Frac.ofInt 30) =
      "rgb(0, 0, 0)" := by
  refine ⟨rfl, darkenColor_full_darken "#ff0000" (Frac.ofInt 30)
    (Frac.ofInt 255) (Frac.ofInt 0) (Frac.ofInt 0) rfl ?_ ?_ ?_ ?_ ?_ ?_⟩ <;>
    rw [Frac.toRat_ofInt] <;> norm_num
